import Mathlib

/-!
Verification of the reconciliation core of the Resume-Tailor backend.

The definitions below are a shallow embedding of the Python source under
`backend/src`: the canonical resume schema and skills coercion
(`models/resume.py`), the Gemini call orchestration with timeout and retry
(`services/gemini.py`, `_call_with_timeout` and `_make_request`), the JSON
parse-and-repair step (`_parse_json_response`), the reconciliation merge
(`_merge_tailored_content`), the tailoring pipeline tail (`tailor_resume`,
steps 5 and 6), and the ATS score (`_calculate_ats_score`).

Untyped Python values that flow through the merge are modelled by `JValue`,
a JSON-like value type; Python truthiness, `str.strip`, `str.split`,
`re.split` on a character class, and dict membership/lookup are modelled by
the helpers below, faithful to CPython semantics on the inputs the claims
exercise (ASCII whitespace; `dict` duplicate-key insertion resolving to the
last value).
-/

namespace ResumeTailor

/-- Untyped JSON-like value, modelling the Python objects produced by
`json.loads` and handed to the merge step. Numbers are modelled as `Int`
(no claim exercises fractional numbers). -/
inductive JValue where
  | null : JValue
  | bool : Bool → JValue
  | num : Int → JValue
  | str : String → JValue
  | arr : List JValue → JValue
  | obj : List (String × JValue) → JValue

/-- Python truthiness (`bool(v)`) for the modelled values: `None`, `0`,
empty strings, empty lists and empty dicts are falsy. -/
def truthy : JValue → Bool
  | .null => false
  | .bool b => b
  | .num n => n != 0
  | .str s => s != ""
  | .arr l => !l.isEmpty
  | .obj l => !l.isEmpty

/-- Lookup in a parsed JSON object. A Python dict produced by `json.loads`
keeps the last value bound to a repeated key, so the lookup takes the last
matching pair. -/
def lookupLast (m : List (String × JValue)) (k : String) : Option JValue :=
  (m.reverse.find? (fun p => p.1 == k)).map (fun p => p.2)

/-- Key equality used when a resume field (a Python `str`) is looked up in a
dict whose keys came from AI output: only a string key can compare equal. -/
def lookupLastKey (m : List (JValue × JValue)) (s : String) : Option JValue :=
  (m.reverse.find? (fun p =>
    match p.1 with
    | .str t => t == s
    | _ => false)).map (fun p => p.2)

/-- The characters stripped by Python `str.strip()` with no argument, for
the ASCII range the claims exercise (this is also the class `\s` of the
`re` module on ASCII text). -/
def isPyWs (c : Char) : Bool :=
  c = ' ' || c = '\t' || c = '\n' || c = '\r' || c = '\x0b' || c = '\x0c'

/-- Python `str.strip()` on ASCII whitespace. -/
def pyStrip (s : String) : String :=
  String.mk (((s.data.dropWhile isPyWs).reverse.dropWhile isPyWs).reverse)

/-- Python `str.rstrip()` on ASCII whitespace. -/
def pyRstrip (s : String) : String :=
  String.mk ((s.data.reverse.dropWhile isPyWs).reverse)

/-- Split a character list at every character satisfying `p`, keeping empty
segments, as Python `str.split(sep)` and `re.split` do. -/
def splitOnPred (p : Char → Bool) : List Char → List (List Char)
  | [] => [[]]
  | c :: rest =>
    match splitOnPred p rest with
    | [] => [[]]
    | h :: t => if p c then [] :: h :: t else (c :: h) :: t

/-- Python `s.split(chr(10))`. -/
def pySplitNl (s : String) : List String :=
  (splitOnPred (fun c => c = '\n') s.data).map String.mk

/-- Python `re.split(r"[,;\n]", s)`: split on comma, semicolon or newline. -/
def pySplitDelims (s : String) : List String :=
  (splitOnPred (fun c => c = ',' || c = ';' || c = '\n') s.data).map String.mk

/-- The comprehension `[x.strip() for x in xs if x.strip()]`: strip each
element and drop the ones that strip to the empty string. -/
def stripNonEmpty (xs : List String) : List String :=
  (xs.map pyStrip).filter (fun s => s != "")

/-- Python `str(v)` for the modelled values. Composite values only occur
off every verified claim path; their rendering is a placeholder. -/
def pyStr : JValue → String
  | .str s => s
  | .null => "None"
  | .bool true => "True"
  | .bool false => "False"
  | .num n => toString n
  | .arr _ => "[...]"
  | .obj _ => "\x7b...\x7d"

/-- A list element taken from AI output and stored into a `List String`
field. The Python code assigns the raw object without validation
(`exp.description = desc`); every claim exercises only string elements,
which pass through unchanged. -/
def jvalueAsStr : JValue → String
  | .str s => s
  | v => pyStr v

/-- Python hashability of the modelled values: lists and dicts cannot be
dict keys (`TypeError: unhashable`). -/
def isHashable : JValue → Bool
  | .arr _ => false
  | .obj _ => false
  | _ => true

/-- `PersonalInfo` of `models/resume.py`. -/
structure PersonalInfo where
  name : String
  email : String
  phone : Option String := none
  location : Option String := none
  linkedin : Option String := none
  github : Option String := none
  website : Option String := none
  summary : Option String := none
deriving DecidableEq

/-- `Education` of `models/resume.py`. -/
structure Education where
  institution : String
  degree : String
  field : Option String := none
  startDate : String
  endDate : String
  gpa : Option String := none
  achievements : List String := []
deriving DecidableEq

/-- `Experience` of `models/resume.py`. -/
structure Experience where
  company : String
  position : String
  location : Option String := none
  startDate : String
  endDate : String
  description : List String
deriving DecidableEq

/-- `Project` of `models/resume.py`. -/
structure Project where
  name : String
  description : String
  technologies : List String := []
  link : Option String := none
  highlights : List String := []
  startDate : Option String := none
  endDate : Option String := none
deriving DecidableEq

/-- `Certification` of `models/resume.py`. -/
structure Certification where
  name : String
  issuer : String
  date : String
  credentialId : Option String := none
  url : Option String := none
deriving DecidableEq

/-- The skills field, `Union[Dict[str, List[str]], List[str]]` in
`models/resume.py`, as a tagged union. -/
inductive Skills where
  | flat : List String → Skills
  | categorized : List (String × List String) → Skills
deriving DecidableEq

/-- `Resume` of `models/resume.py`. Timestamps are kept as opaque optional
strings; no verified code path inspects them. -/
structure Resume where
  id : String
  name : String
  personalInfo : PersonalInfo
  education : List Education := []
  experience : List Experience := []
  skills : Skills
  projects : List Project := []
  certifications : List Certification := []
  createdAt : Option String := none
  updatedAt : Option String := none
  accentColor : Option String := none
deriving DecidableEq

/-- The legacy category-object branch of `Resume.coerce_skills`: rebuild a
list of `\x7bcategory, skills|items\x7d` dicts into one dict, later entries
for the same category overwriting earlier ones in place (Python dict
assignment). A non-dict element raises (`item.get`). A non-string category
is not exercised by any claim; in Python it would either be rejected later
by pydantic key validation or raise at dict assignment, and the model
reports the error at this stage. -/
def legacyCatsAux (acc : List (String × JValue)) : List JValue → Except String (List (String × JValue))
  | [] => .ok acc
  | .obj o :: rest =>
    match (lookupLast o "category").getD (.str "Other") with
    | .str cat =>
      let raw0 := (lookupLast o "skills").getD .null
      let raw1 := if truthy raw0 then raw0 else (lookupLast o "items").getD .null
      let raw := if truthy raw1 then raw1 else .str ""
      let val : JValue :=
        match raw with
        | .arr l => .arr l
        | v => .arr ((stripNonEmpty (pySplitDelims (pyStr v))).map .str)
      let acc1 :=
        if acc.any (fun p => p.1 == cat) then
          acc.map (fun p => if p.1 == cat then (p.1, val) else p)
        else
          acc ++ [(cat, val)]
      legacyCatsAux acc1 rest
    | _ => .error "validation error: non-string category"
  | _ :: _ => .error "AttributeError: get"

/-- The flat-list branch of `Resume.coerce_skills`: keep the string
elements, stripped (`out.append(item.strip())`, with no emptiness filter),
and drop non-string elements. -/
def flatSkillsList (items : List JValue) : JValue :=
  .arr (items.filterMap (fun v =>
    match v with
    | .str s => some (JValue.str (pyStrip s))
    | _ => none))

/-- `Resume.coerce_skills` of `models/resume.py`: the mode-before validator
normalising the legacy skills encodings. Returns the value handed on to
pydantic field validation. The legacy branch is taken when the list is
non-empty and its first element is a dict containing a "category" key. -/
def coerceSkills : JValue → Except String JValue
  | .null => .ok (.arr [])
  | .obj kvs =>
    .ok (.obj (kvs.filterMap (fun p =>
      match p.2 with
      | .arr items => some (p.1, .arr ((stripNonEmpty (items.map pyStr)).map .str))
      | .str s => some (p.1, .arr ((stripNonEmpty (pySplitDelims s)).map .str))
      | _ => none)))
  | .arr items =>
    match items with
    | .obj o :: _ =>
      if (lookupLast o "category").isSome then
        (legacyCatsAux [] items).map .obj
      else
        .ok (flatSkillsList items)
    | _ => .ok (flatSkillsList items)
  | .str s => .ok (.arr ((stripNonEmpty (pySplitDelims s)).map .str))
  | v => .ok v

/-- Pydantic validation of a `List[str]` value. -/
def strListOf : List JValue → Except String (List String)
  | [] => .ok []
  | .str s :: rest => (strListOf rest).map (fun l => s :: l)
  | _ :: _ => .error "validation error: str expected"

/-- Pydantic validation of a `Dict[str, List[str]]` value. -/
def catListOf : List (String × JValue) → Except String (List (String × List String))
  | [] => .ok []
  | (k, .arr items) :: rest => do
    let l ← strListOf items
    let r ← catListOf rest
    .ok ((k, l) :: r)
  | _ :: _ => .error "validation error: list expected"

/-- Pydantic validation of the coerced skills value against
`Union[Dict[str, List[str]], List[str]]`. -/
def toSkills : JValue → Except String Skills
  | .arr items => (strListOf items).map Skills.flat
  | .obj kvs => (catListOf kvs).map Skills.categorized
  | _ => .error "validation error: list or dict expected"

/-- `Resume.validate_skills` of `models/resume.py`: `not v` rejects an empty
list or an empty dict (a dict of empty lists is truthy and passes). -/
def validateSkills : Skills → Except String Skills
  | .flat [] => .error "At least one skill is required"
  | .categorized [] => .error "At least one skill is required"
  | s => .ok s

/-- The full skills pipeline: coercion, union validation, then the
non-empty check, as pydantic runs them in `models/resume.py`. -/
def coerceAndValidateSkills (v : JValue) : Except String Skills := do
  let c ← coerceSkills v
  let s ← toSkills c
  validateSkills s

/-- The schema invariants of the spec (section 4.1) as enforced by
`models/resume.py`: skills non-empty (`validate_skills`), experience list
non-empty (`validate_experience`), and every experience description
non-empty (`min_items=1` on `Experience.description`). -/
def schemaInvariants (r : Resume) : Bool :=
  (match r.skills with
   | .flat l => !l.isEmpty
   | .categorized l => !l.isEmpty)
  && !r.experience.isEmpty
  && r.experience.all (fun e => !e.description.isEmpty)

/-- The dict comprehension of `_merge_tailored_content` building
`tailored_exps`: every element must be a dict carrying the keys "company"
and "description" (a missing key raises `KeyError`, a non-dict element or
an unhashable key raises `TypeError`). -/
def buildExpMap : List JValue → Except String (List (JValue × JValue))
  | [] => .ok []
  | .obj o :: rest =>
    match lookupLast o "company" with
    | none => .error "KeyError: company"
    | some ck =>
      match lookupLast o "description" with
      | none => .error "KeyError: description"
      | some dv =>
        if isHashable ck then
          (buildExpMap rest).map (fun m => (ck, dv) :: m)
        else
          .error "TypeError: unhashable type"
  | _ :: _ => .error "TypeError: not a dict"

/-- The dict comprehension of `_merge_tailored_content` building
`tailored_projs`: every element must be a dict carrying the key "name";
"highlights" is read with `.get` and defaults to the empty list. -/
def buildProjMap : List JValue → Except String (List (JValue × JValue))
  | [] => .ok []
  | .obj o :: rest =>
    match lookupLast o "name" with
    | none => .error "KeyError: name"
    | some nk =>
      let hv := (lookupLast o "highlights").getD (.arr [])
      if isHashable nk then
        (buildProjMap rest).map (fun m => (nk, hv) :: m)
      else
        .error "TypeError: unhashable type"
  | _ :: _ => .error "TypeError: not a dict"

/-- The per-experience body of the merge loop: when the company name hits
the AI map, a string value is split on newlines, stripped and filtered,
and a list value is assigned as-is — with no emptiness guard; any other
value type leaves the description unchanged. -/
def updateExpDesc (m : List (JValue × JValue)) (e : Experience) : Experience :=
  match lookupLastKey m e.company with
  | none => e
  | some (.str s) => { e with description := stripNonEmpty (pySplitNl s) }
  | some (.arr ds) => { e with description := ds.map jvalueAsStr }
  | some _ => e

/-- The per-project body of the merge loop: the AI value must be present
and truthy (so an empty list or empty string is rejected and the original
highlights are kept); a truthy string is split on newlines, a truthy list
is assigned as-is. -/
def updateProjHighlights (m : List (JValue × JValue)) (p : Project) : Project :=
  match lookupLastKey m p.name with
  | none => p
  | some h =>
    if truthy h then
      match h with
      | .str s => { p with highlights := stripNonEmpty (pySplitNl s) }
      | .arr hs => { p with highlights := hs.map jvalueAsStr }
      | _ => p
    else p

/-- The summary block of `_merge_tailored_content`: replace the summary
only when the key is present and the value truthy. -/
def mergeSummary (r : Resume) (t : List (String × JValue)) : Resume :=
  match lookupLast t "summary" with
  | some v =>
    if truthy v then
      { r with personalInfo := { r.personalInfo with summary := some (jvalueAsStr v) } }
    else r
  | none => r

/-- The experiences block of `_merge_tailored_content`. Iterating a
non-list value mirrors Python: an empty string or empty dict iterates to
nothing (an empty AI map), anything else raises `TypeError` when the
element is subscripted. -/
def mergeExperiences (r : Resume) (t : List (String × JValue)) : Except String Resume :=
  match lookupLast t "experiences" with
  | none => .ok r
  | some (.arr exps) =>
    match buildExpMap exps with
    | .error e => .error e
    | .ok m => .ok { r with experience := r.experience.map (updateExpDesc m) }
  | some (.str s) => if s = "" then .ok r else .error "TypeError: string indices must be integers"
  | some (.obj kvs) => if kvs.isEmpty then .ok r else .error "TypeError: string indices must be integers"
  | some _ => .error "TypeError: not iterable"

/-- The projects block of `_merge_tailored_content`, analogous to the
experiences block. -/
def mergeProjects (r : Resume) (t : List (String × JValue)) : Except String Resume :=
  match lookupLast t "projects" with
  | none => .ok r
  | some (.arr ps) =>
    match buildProjMap ps with
    | .error e => .error e
    | .ok m => .ok { r with projects := r.projects.map (updateProjHighlights m) }
  | some (.str s) => if s = "" then .ok r else .error "TypeError: string indices must be integers"
  | some (.obj kvs) => if kvs.isEmpty then .ok r else .error "TypeError: string indices must be integers"
  | some _ => .error "TypeError: not iterable"

/-- A raw AI skills value stored into the skills field. Python assigns the
parsed object unchecked (`enhanced.skills = tailored["skills"]`, with no
coercion and no validation); the model normalises it into the tagged union,
which is faithful for the list-of-strings and dict shapes AI output takes. -/
def jvalueToSkills : JValue → Skills
  | .arr xs => .flat (xs.map jvalueAsStr)
  | .obj kvs =>
    .categorized (kvs.map (fun p =>
      (p.1, match p.2 with
            | .arr xs => xs.map jvalueAsStr
            | v => [jvalueAsStr v])))
  | v => .flat [jvalueAsStr v]

/-- The skills block of `_merge_tailored_content`: replace wholesale when
present and truthy, with no coercion and no non-empty re-validation. -/
def mergeSkills (r : Resume) (t : List (String × JValue)) : Resume :=
  match lookupLast t "skills" with
  | some v => if truthy v then { r with skills := jvalueToSkills v } else r
  | none => r

/-- `GeminiService._merge_tailored_content`: a deep copy of the original
(`model_copy(deep=True)`, hence a pure function here) with the four blocks
applied in source order. An exception in any block propagates. -/
def mergeTailoredContent (original : Resume) (tailored : List (String × JValue)) : Except String Resume :=
  match mergeExperiences (mergeSummary original tailored) tailored with
  | .error e => .error e
  | .ok r2 =>
    match mergeProjects r2 tailored with
    | .error e => .error e
    | .ok r3 => .ok (mergeSkills r3 tailored)

/-- `GeminiService._calculate_ats_score`. Python computes
`int((len(matched) / total) * 100)`, truncating the float toward zero; the
model uses exact integer floor division, which agrees with CPython at every
input referenced by a claim (binary-float rounding can differ from the
exact quotient only when the product lands next to an integer boundary,
which none of the cited inputs does). -/
def calculateAtsScore (matched missing : List String) : Int :=
  if matched.isEmpty && missing.isEmpty then 75
  else
    let total : Int := matched.length + missing.length
    if total = 0 then 75
    else
      let score : Int := (matched.length * 100) / total
      max 0 (min 100 score)

/-- The response record built at step 6 of `tailor_resume`. -/
structure TailorResponse where
  tailoredResume : Resume
  atsScore : Int
  matchedKeywords : List String
  missingKeywords : List String
  suggestions : List String
  changes : List String
deriving DecidableEq

/-- Pydantic validation of a `List[str]` response field of
`TailorResponse`: only a list whose elements are all strings is accepted
(pydantic v2 neither treats a string or dict as a list nor coerces an
int element to str); anything else raises `ValidationError`. -/
def pydStrList : JValue → Except String (List String)
  | .arr xs => strListOf xs
  | _ => .error "validation error: list expected"

/-- Steps 5 and 6 of `GeminiService.tailor_resume`, starting from the
parsed response dict: read `result["tailoredResume"]` (a missing key raises
`KeyError`), merge, then build `TailorResponse` from `result.get(key, [])`
for the four list fields. Pydantic validates those four fields as
`List[str]` at construction (the merged resume itself is an existing model
instance and is not revalidated, and the ATS score, computed from the raw
values before construction, is clamped into the `ge=0, le=100` bound), so
a non-list value or a non-string element raises; the enclosing
`try/except` turns any exception — from the merge, from `len()` inside the
score on an unsized value, or from this validation — into `None`. No
schema invariant is re-checked on the merged resume. A non-dict
`tailoredResume` value is not exercised by any claim and is modelled as
the caught-exception path. -/
def tailorFromParsed (resume : Resume) (result : List (String × JValue)) : Option TailorResponse :=
  match lookupLast result "tailoredResume" with
  | some (.obj t) =>
    match mergeTailoredContent resume t with
    | .ok enhanced =>
      match pydStrList ((lookupLast result "matchedKeywords").getD (.arr [])),
            pydStrList ((lookupLast result "missingKeywords").getD (.arr [])),
            pydStrList ((lookupLast result "suggestions").getD (.arr [])),
            pydStrList ((lookupLast result "changes").getD (.arr [])) with
      | .ok mk, .ok mik, .ok sug, .ok chg =>
        some
          { tailoredResume := enhanced
            atsScore := calculateAtsScore mk mik
            matchedKeywords := mk
            missingKeywords := mik
            suggestions := sug
            changes := chg }
      | _, _, _, _ => none
    | .error _ => none
  | _ => none

/-- The orchestration settings of `app/config.py` consumed by
`_make_request`: `GEMINI_TIMEOUT`, `GEMINI_RETRY_ATTEMPTS`,
`GEMINI_RETRY_DELAY` (defaults 30, 3, 1.0). Durations and delays are exact
rationals; the delays the code computes (`delay * 2 ** retry_count` on
power-of-two floats) are float-exact. -/
structure GeminiPolicy where
  timeout : ℚ
  retryAttempts : Nat
  retryDelay : ℚ

/-- One behaviour of the upstream `generate_content` call: it runs for
`dur` seconds and then either returns text or raises with a message. -/
inductive CallBehavior where
  | returns : ℚ → String → CallBehavior
  | raises : ℚ → String → CallBehavior

/-- The wall-clock duration of a call behaviour. -/
def callDuration : CallBehavior → ℚ
  | .returns d _ => d
  | .raises d _ => d

/-- What `_call_with_timeout` hands back to `_make_request`: the value, the
call's own exception, or a `TimeoutError`. -/
inductive CallOutcome where
  | ok : String → CallOutcome
  | exc : String → CallOutcome
  | timedOut : CallOutcome

/-- `_call_with_timeout` of `services/gemini.py`: run the call in a worker
thread and `join` with the timeout; if the thread is still alive the
orchestrator raises `TimeoutError` and the in-flight call is abandoned
(its eventual result or exception is discarded). -/
def callWithTimeout (timeoutS : ℚ) (b : CallBehavior) : CallOutcome :=
  match b with
  | .returns d t => if timeoutS < d then .timedOut else .ok t
  | .raises d m => if timeoutS < d then .timedOut else .exc m

/-- How one `_make_request` invocation ended. The Python function returns
`None` on both failure paths; the constructors record which return
statement ran (the timeout branch versus the exhausted-retries branch),
which are distinct code paths with distinct log lines. -/
inductive ReqOutcome where
  | success : String → ReqOutcome
  | timedOut : ReqOutcome
  | exhausted : ReqOutcome
deriving DecidableEq

/-- The rate-limit heuristic of `_make_request`: the lowered exception text
contains "429", "resource" or "quota". Computed for diagnostics only; the
retry path never branches on it. -/
def isRateLimit (msg : String) : Bool :=
  let es := msg.toLower
  (es.splitOn "429").length ≥ 2
  || (es.splitOn "resource").length ≥ 2
  || (es.splitOn "quota").length ≥ 2

/-- `GeminiService._make_request` from a given `retry_count`, against an
upstream whose behaviour on attempt `n` is `upstream n`. Returns the
outcome, the total number of upstream attempts issued, and the list of
sleeps taken between attempts. A `TimeoutError` returns immediately with
no retry; an empty successful response raises `ValueError` inside the
`try`, which the generic handler retries like any other exception; any
other exception retries while `retry_count < GEMINI_RETRY_ATTEMPTS`,
sleeping `GEMINI_RETRY_DELAY * 2 ** retry_count` first. -/
def makeRequestAux (p : GeminiPolicy) (upstream : Nat → CallBehavior) (retryCount : Nat) : ReqOutcome × Nat × List ℚ :=
  match callWithTimeout p.timeout (upstream retryCount) with
  | .timedOut => (.timedOut, 1, [])
  | .ok t =>
    if t = "" then
      if _h : retryCount < p.retryAttempts then
        let delay := p.retryDelay * 2 ^ retryCount
        let rec1 := makeRequestAux p upstream (retryCount + 1)
        (rec1.1, rec1.2.1 + 1, delay :: rec1.2.2)
      else
        (.exhausted, 1, [])
    else
      (.success t, 1, [])
  | .exc _ =>
    if _h : retryCount < p.retryAttempts then
      let delay := p.retryDelay * 2 ^ retryCount
      let rec1 := makeRequestAux p upstream (retryCount + 1)
      (rec1.1, rec1.2.1 + 1, delay :: rec1.2.2)
    else
      (.exhausted, 1, [])
termination_by p.retryAttempts - retryCount

/-- `GeminiService._make_request` as called, with `retry_count = 0`. -/
def makeRequest (p : GeminiPolicy) (upstream : Nat → CallBehavior) : ReqOutcome × Nat × List ℚ :=
  makeRequestAux p upstream 0

/-- The whitespace `json.loads` skips between tokens: space, tab, newline,
carriage return. -/
def skipWs (l : List Char) : List Char :=
  l.dropWhile (fun c => c = ' ' || c = '\t' || c = '\n' || c = '\r')

/-- A hexadecimal digit, as accepted inside a `\u` escape. -/
def isHexDigit (c : Char) : Bool :=
  c.isDigit || ('a' ≤ c && c ≤ 'f') || ('A' ≤ c && c ≤ 'F')

/-- Scan a JSON string body after its opening quote, returning the input
after the closing quote; strict mode rejects raw control characters, and
only the RFC escapes are accepted. -/
def scanStringBody : List Char → Option (List Char)
  | [] => none
  | '"' :: rest => some rest
  | '\\' :: e :: rest =>
    match e with
    | '"' | '\\' | '/' | 'b' | 'f' | 'n' | 'r' | 't' => scanStringBody rest
    | 'u' =>
      match rest with
      | a :: b :: c :: d :: rest1 =>
        if isHexDigit a && isHexDigit b && isHexDigit c && isHexDigit d then
          scanStringBody rest1
        else none
      | _ => none
    | _ => none
  | c :: rest => if c.val < 32 then none else scanStringBody rest

/-- The integer part of a JSON number: a single zero, or a nonzero digit
followed by digits. -/
def scanIntPart : List Char → Option (List Char)
  | '0' :: rest => some rest
  | c :: rest => if c.isDigit then some (rest.dropWhile Char.isDigit) else none
  | [] => none

/-- The optional fraction part of a JSON number. -/
def scanFracOpt : List Char → Option (List Char)
  | '.' :: c :: rest => if c.isDigit then some (rest.dropWhile Char.isDigit) else none
  | '.' :: [] => none
  | l => some l

/-- The optional exponent part of a JSON number. -/
def scanExpOpt : List Char → Option (List Char)
  | c :: rest =>
    if c = 'e' || c = 'E' then
      match rest with
      | s :: rest1 =>
        if s = '+' || s = '-' then
          match rest1 with
          | d :: rest2 => if d.isDigit then some (rest2.dropWhile Char.isDigit) else none
          | [] => none
        else if s.isDigit then some (rest1.dropWhile Char.isDigit)
        else none
      | [] => none
    else some (c :: rest)
  | [] => some []

/-- A JSON number, with an optional leading minus. -/
def scanNumber (l : List Char) : Option (List Char) := do
  let l1 := match l with
            | '-' :: r => r
            | _ => l
  let r1 ← scanIntPart l1
  let r2 ← scanFracOpt r1
  scanExpOpt r2

/-- Which production the JSON scanner is working on. -/
inductive ScanMode where
  | value : ScanMode
  | members : ScanMode
  | elements : ScanMode

/-- Accept one JSON production, fuel-bounded; models the grammar
`json.loads` accepts (including the non-standard `NaN` and `Infinity`
constants CPython allows by default). In `value` mode one value is
accepted; `members` and `elements` modes accept the remainder of an object
or array after its opening token (the empty cases are handled before
entering the mode). Returns the remaining input. -/
def scanJson : Nat → ScanMode → List Char → Option (List Char)
  | 0, _, _ => none
  | fuel + 1, .value, l =>
    match l with
    | '"' :: rest => scanStringBody rest
    | '\x7b' :: rest =>
      match skipWs rest with
      | '\x7d' :: rest1 => some rest1
      | r => scanJson fuel .members r
    | '[' :: rest =>
      match skipWs rest with
      | ']' :: rest1 => some rest1
      | r => scanJson fuel .elements r
    | 't' :: 'r' :: 'u' :: 'e' :: rest => some rest
    | 'f' :: 'a' :: 'l' :: 's' :: 'e' :: rest => some rest
    | 'n' :: 'u' :: 'l' :: 'l' :: rest => some rest
    | 'N' :: 'a' :: 'N' :: rest => some rest
    | 'I' :: 'n' :: 'f' :: 'i' :: 'n' :: 'i' :: 't' :: 'y' :: rest => some rest
    | '-' :: 'I' :: 'n' :: 'f' :: 'i' :: 'n' :: 'i' :: 't' :: 'y' :: rest => some rest
    | c :: _ => if c = '-' || c.isDigit then scanNumber l else none
    | [] => none
  | fuel + 1, .members, l =>
    match l with
    | '"' :: rest =>
      match scanStringBody rest with
      | none => none
      | some r1 =>
        match skipWs r1 with
        | ':' :: r2 =>
          match scanJson fuel .value (skipWs r2) with
          | none => none
          | some r3 =>
            match skipWs r3 with
            | ',' :: r4 => scanJson fuel .members (skipWs r4)
            | '\x7d' :: r4 => some r4
            | _ => none
        | _ => none
    | _ => none
  | fuel + 1, .elements, l =>
    match scanJson fuel .value l with
    | none => none
    | some r1 =>
      match skipWs r1 with
      | ',' :: r2 => scanJson fuel .elements (skipWs r2)
      | ']' :: r2 => some r2
      | _ => none

/-- Whether `json.loads` accepts the text: one value, surrounded only by
whitespace. The fuel bound exceeds any possible nesting of the input. -/
def jsonValid (s : String) : Bool :=
  match scanJson (2 * s.length + 8) .value (skipWs s.data) with
  | some rest => (skipWs rest).isEmpty
  | none => false

/-- Whether the first list begins with the second. -/
def charsStartWith : List Char → List Char → Bool
  | _, [] => true
  | [], _ :: _ => false
  | c :: cs, p :: ps => c == p && charsStartWith cs ps

/-- Python `s.startswith(pre)`. -/
def pyStartsWith (s pre : String) : Bool :=
  charsStartWith s.data pre.data

/-- Python `s.endswith(suf)`. -/
def pyEndsWith (s suf : String) : Bool :=
  charsStartWith s.data.reverse suf.data.reverse

/-- Python `s[n:]`. -/
def pyDrop (s : String) (n : Nat) : String :=
  String.mk (s.data.drop n)

/-- Python `s[:-n]` for `0 < n ≤ len(s)`. -/
def pyDropRight (s : String) (n : Nat) : String :=
  String.mk (s.data.take (s.data.length - n))

/-- The markdown-fence stripping `_parse_json_response` performs both
before the strict parse and at the start of the repair path. -/
def stripFences (s : String) : String :=
  let cleaned := pyStrip s
  let cleaned := if pyStartsWith cleaned "```json" then pyDrop cleaned 7 else cleaned
  let cleaned := if pyStartsWith cleaned "```" then pyDrop cleaned 3 else cleaned
  let cleaned := if pyEndsWith cleaned "```" then pyDropRight cleaned 3 else cleaned
  pyStrip cleaned

/-- Count of the regex `(?<!\\)"` matches: quotes not directly preceded by
a backslash (the first character counts when it is a quote). -/
def countUnescapedQuotes (l : List Char) : Nat :=
  go none l
where
  go : Option Char → List Char → Nat
    | _, [] => 0
    | prev, c :: rest =>
      (if c = '"' && prev ≠ some '\\' then 1 else 0) + go (some c) rest

/-- One left-to-right pass of `re.sub(r",\s*(\x7d|\])", r"\1", s)`: every
comma followed by optional whitespace and a closer is replaced by the
closer, the scan resuming after the match. The fuel starts above the input
length and every step consumes at least one character. -/
def dropCommaAux : Nat → List Char → List Char
  | 0, _ => []
  | _, [] => []
  | fuel + 1, ',' :: rest =>
    match rest.dropWhile isPyWs with
    | '\x7d' :: r1 => '\x7d' :: dropCommaAux fuel r1
    | ']' :: r1 => ']' :: dropCommaAux fuel r1
    | _ => ',' :: dropCommaAux fuel rest
  | fuel + 1, c :: rest => c :: dropCommaAux fuel rest

/-- The regex substitution applied to a whole character list. -/
def dropCommaBeforeClosers (l : List Char) : List Char :=
  dropCommaAux (l.length + 1) l

/-- The repair path of `_parse_json_response`: strip fences again, close an
odd unescaped quote, append the missing closing braces, append the missing
closing brackets, drop commas sitting before closers, and drop a final
dangling comma. -/
def repairJson (responseText : String) : String :=
  let repaired := stripFences responseText
  let repaired :=
    if countUnescapedQuotes repaired.data % 2 = 1 then repaired ++ "\"" else repaired
  let openBraces := repaired.data.count '\x7b'
  let closeBraces := repaired.data.count '\x7d'
  let repaired :=
    if openBraces > closeBraces then
      repaired ++ String.mk (List.replicate (openBraces - closeBraces) '\x7d')
    else repaired
  let openBrackets := repaired.data.count '['
  let closeBrackets := repaired.data.count ']'
  let repaired :=
    if openBrackets > closeBrackets then
      repaired ++ String.mk (List.replicate (openBrackets - closeBrackets) ']')
    else repaired
  let repaired := String.mk (dropCommaBeforeClosers repaired.data)
  if pyEndsWith (pyRstrip repaired) "," then pyDropRight (pyRstrip repaired) 1 else repaired

/-- Whether `_parse_json_response` returns a parsed dict rather than
`None`: the strict parse of the stripped text succeeds, or the single
repaired re-parse succeeds. -/
def parseJsonOk (responseText : String) : Bool :=
  if jsonValid (stripFences responseText) then true
  else jsonValid (repairJson responseText)

/-- A small concrete personal-info record used by the concrete theorems. -/
def samplePersonalInfo : PersonalInfo :=
  { name := "Jane Doe", email := "jane@example.com", summary := some "Old summary" }

/-- A concrete experience entry with a non-empty description. -/
def sampleExperience : Experience :=
  { company := "Acme", position := "Engineer", startDate := "2020", endDate := "2021"
    description := ["Built systems"] }

/-- A concrete project entry with non-empty highlights. -/
def sampleProject : Project :=
  { name := "Widget", description := "A widget", highlights := ["Did a thing"] }

/-- A concrete schema-valid resume used by the concrete theorems. -/
def sampleResume : Resume :=
  { id := "r1", name := "Main", personalInfo := samplePersonalInfo
    experience := [sampleExperience], skills := .flat ["Python"]
    projects := [sampleProject] }

/-- An AI experiences entry matching `sampleExperience` by company and
carrying an empty description list. -/
def emptyDescTailored : List (String × JValue) :=
  [("experiences", .arr [.obj [("company", .str "Acme"), ("description", .arr [])]])]

/-- A parsed response whose `tailoredResume.experiences` empties the
matched description. -/
def emptyDescParsed : List (String × JValue) :=
  [("tailoredResume", .obj emptyDescTailored), ("matchedKeywords", .arr [.str "Python"])]

/-- The truncated raw response of the section 8 repair example, with the
balanced substructure instantiated to the empty object: two objects opened
and one closed, one array opened and not closed, and the final string
unterminated. -/
def rawTruncated : String :=
  "\x7b\"tailoredResume\":\x7b\x7d,\"matchedKeywords\":[\"Python"

/-- Modelled from the spec (section 4.6 and 8), for comparison with
`calculateAtsScore`: the claimed score rounds `matched / (matched+missing)
× 100` to the nearest integer and clamps it to the range 0 to 100. -/
def atsScoreClaimed (matched missing : Nat) : Int :=
  if matched = 0 ∧ missing = 0 then 75
  else min 100 (max 0 (round (((matched : ℚ) * 100) / ((matched : ℚ) + (missing : ℚ)))))

/-- The resume produced by merging `emptyDescTailored` into
`sampleResume`: the matched experience description has been emptied. -/
def emptyDescMerged : Resume :=
  { sampleResume with experience := [{ sampleExperience with description := [] }] }

/-- A parsed response whose `tailoredResume.experiences` entry lacks the
"company" key, so the merge raises `KeyError`. -/
def keyErrorParsed : List (String × JValue) :=
  [("tailoredResume", .obj [("experiences", .arr [.obj []])])]

/-- A parsed response whose merge succeeds but whose `matchedKeywords`
value holds a non-string element, so the `TailorResponse` construction
raises `ValidationError` and `tailor_resume` returns `None`. -/
def badKeywordsParsed : List (String × JValue) :=
  [("tailoredResume", .obj []), ("matchedKeywords", .arr [.num 5])]

theorem updateExpDesc_company (m : List (JValue × JValue)) (e : Experience) :
    (updateExpDesc m e).company = e.company := by
  unfold updateExpDesc
  split <;> rfl

theorem updateProjHighlights_name (m : List (JValue × JValue)) (p : Project) :
    (updateProjHighlights m p).name = p.name := by
  unfold updateProjHighlights
  split
  · rfl
  · split
    · split <;> rfl
    · rfl

theorem flatSkillsList_strings (xs : List String) :
    flatSkillsList (xs.map .str) = .arr (xs.map (fun s => JValue.str (pyStrip s))) := by
  unfold flatSkillsList
  congr 1
  induction xs with
  | nil => rfl
  | cons s rest ih => simp only [List.map_cons, List.filterMap_cons, ih]

/-- C1, counterexample. The claim says that a matched experience whose
AI-provided description is an empty list keeps its original description.
On the concrete resume below the merge replaces the description
`["Built systems"]` with the empty list. -/
theorem c1_counterexample :
    mergeTailoredContent sampleResume emptyDescTailored =
      .ok { sampleResume with experience := [{ sampleExperience with description := [] }] }
    ∧ sampleExperience.description = ["Built systems"] := by
  constructor
  · rfl
  · rfl

/-- C1, amended. The empty-value guard exists only for project highlights:
a matched project whose AI highlights value is the empty list (falsy) is
left untouched, while a matched experience whose AI description is the
empty list has its description replaced by the empty list. -/
theorem c1_amended :
    (∀ (m : List (JValue × JValue)) (p : Project),
        lookupLastKey m p.name = some (.arr []) → updateProjHighlights m p = p)
    ∧ (∀ (m : List (JValue × JValue)) (e : Experience),
        lookupLastKey m e.company = some (.arr []) →
          updateExpDesc m e = { e with description := [] }) := by
  constructor
  · intro m p h
    unfold updateProjHighlights
    rw [h]
    rfl
  · intro m e h
    unfold updateExpDesc
    rw [h]
    rfl

/-- C1, witness for the amended theorem at concrete inputs. -/
theorem c1_amended_witness :
    updateProjHighlights [(JValue.str "Widget", JValue.arr [])] sampleProject = sampleProject
    ∧ updateExpDesc [(JValue.str "Acme", JValue.arr [])] sampleExperience =
        { sampleExperience with description := [] } :=
  ⟨c1_amended.1 _ sampleProject rfl, c1_amended.2 _ sampleExperience rfl⟩

/-- C3, counterexample. The claim says the merger treats a missing field
(such as an experiences entry without a "company" key) as absent rather
than raising; the code raises `KeyError`, which the model surfaces as an
error value. -/
theorem c3_counterexample :
    mergeTailoredContent sampleResume
      [("experiences", .arr [.obj [("position", .str "Engineer")]])] =
      .error "KeyError: company" := by
  rfl

/-- C3, amended. Presence checks exist only at the top level of the AI
mapping ("summary", "experiences", "projects", "skills" may all be absent,
leaving the resume unchanged) and for a projects entry's "highlights" key
(defaulting to the empty list); a missing "company" or "description" key in
an experiences entry, or a missing "name" key in a projects entry, raises
instead of being treated as absent. -/
theorem c3_amended :
    (∀ r : Resume, mergeTailoredContent r [] = .ok r)
    ∧ (∀ n : String, buildProjMap [.obj [("name", .str n)]] = .ok [(.str n, .arr [])])
    ∧ buildExpMap [.obj [("description", .arr [.str "Built systems"])]] =
        .error "KeyError: company"
    ∧ buildExpMap [.obj [("company", .str "Acme")]] = .error "KeyError: description"
    ∧ buildProjMap [.obj [("highlights", .arr [.str "x"])]] = .error "KeyError: name" := by
  refine ⟨fun r => rfl, fun n => rfl, rfl, rfl, rfl⟩

/-- C4, counterexample. The claim says the flat-list branch of the skills
coercion drops elements that trim to empty; the code keeps them, so
`["Python", " "]` coerces to `Flat(["Python", ""])`, not
`Flat(["Python"])`. -/
theorem c4_counterexample :
    coerceAndValidateSkills (.arr [.str "Python", .str " "]) = .ok (.flat ["Python", ""])
    ∧ Skills.flat ["Python", ""] ≠ Skills.flat ["Python"] := by
  constructor
  · rfl
  · decide

/-- C4, amended. The four section-8 example inputs coerce exactly as the
claim states; the general flat-list rule, however, trims each string
element and drops non-string elements but keeps elements that trim to the
empty string. -/
theorem c4_amended :
    coerceAndValidateSkills (.arr [.str "Python", .str "Go"]) = .ok (.flat ["Python", "Go"])
    ∧ coerceAndValidateSkills
        (.obj [("Backend", .arr [.str "Python", .str "Go"]),
               ("Database", .arr [.str "Postgres"])]) =
        .ok (.categorized [("Backend", ["Python", "Go"]), ("Database", ["Postgres"])])
    ∧ coerceAndValidateSkills
        (.arr [.obj [("category", .str "Backend"), ("skills", .str "Python,Go")]]) =
        .ok (.categorized [("Backend", ["Python", "Go"])])
    ∧ coerceAndValidateSkills (.str "Python, Go; Rust\nJava") =
        .ok (.flat ["Python", "Go", "Rust", "Java"])
    ∧ (∀ xs : List String,
        coerceSkills (.arr (xs.map .str)) =
          .ok (.arr (xs.map (fun s => JValue.str (pyStrip s))))) := by
  refine ⟨rfl, rfl, rfl, rfl, ?_⟩
  intro xs
  have h := flatSkillsList_strings xs
  cases xs with
  | nil => rfl
  | cons s rest =>
    unfold coerceSkills
    rw [← h]
    rfl

set_option maxRecDepth 65536 in
/-- C7, counterexample. The claim says the repair of the truncated
section-8 response text parses successfully on the single re-parse; on the
code's repair order (braces appended before brackets) the repaired text is
not valid JSON and the parse returns a failure. -/
theorem c7_counterexample : parseJsonOk rawTruncated = false := by
  decide

set_option maxRecDepth 65536 in
/-- C7, amended. The repair appends one closing quote, then the missing
closing brace, then the missing closing bracket, in that order, so the
brace lands inside the still-open array; the strict parse of the stripped
text and the single re-parse of the repaired text both fail, and the
parser returns a malformed-response failure. -/
theorem c7_amended :
    jsonValid (stripFences rawTruncated) = false
    ∧ repairJson rawTruncated =
        "\x7b\"tailoredResume\":\x7b\x7d,\"matchedKeywords\":[\"Python\"\x7d]"
    ∧ jsonValid (repairJson rawTruncated) = false := by
  refine ⟨by decide, by decide, by decide⟩


/-- C8, counterexample. The claim says the score rounds
`matched / (matched + missing) × 100` to the nearest integer; the code
truncates, so two matched and one missing keyword score 66 while the
claimed rounding gives 67. -/
theorem c8_counterexample :
    calculateAtsScore ["a", "b"] ["c"] = 66 ∧ atsScoreClaimed 2 1 = 67 := by
  constructor
  · decide
  · show atsScoreClaimed 2 1 = 67
    unfold atsScoreClaimed
    norm_num [round_eq]

/-- C8, amended. The score is 75 when both keyword lists are empty and
otherwise the truncation (not the rounding) of
`matched / (matched + missing) × 100`, clamped; it always lies in the
range 0 to 100, and eight matched with two missing keywords score 80. -/
theorem c8_amended :
    (∀ matched missing : List String,
        0 ≤ calculateAtsScore matched missing ∧ calculateAtsScore matched missing ≤ 100)
    ∧ calculateAtsScore [] [] = 75
    ∧ calculateAtsScore ["a", "b", "c", "d", "e", "f", "g", "h"] ["x", "y"] = 80 := by
  refine ⟨?_, by decide, by decide⟩
  intro matched missing
  simp only [calculateAtsScore]
  split
  · exact ⟨by norm_num, by norm_num⟩
  · split
    · exact ⟨by norm_num, by norm_num⟩
    · exact ⟨le_max_left 0 _, max_le (by norm_num) (min_le_left _ _)⟩


theorem map_company_updateExp (m : List (JValue × JValue)) (l : List Experience) :
    (l.map (updateExpDesc m)).map (fun e => e.company) = l.map (fun e => e.company) := by
  induction l with
  | nil => rfl
  | cons e rest ih => simp only [List.map_cons, updateExpDesc_company, ih]

theorem map_name_updateProj (m : List (JValue × JValue)) (l : List Project) :
    (l.map (updateProjHighlights m)).map (fun p => p.name) = l.map (fun p => p.name) := by
  induction l with
  | nil => rfl
  | cons p rest ih => simp only [List.map_cons, updateProjHighlights_name, ih]

theorem mergeSummary_shape (r : Resume) (t : List (String × JValue)) :
    ∃ pi, mergeSummary r t = { r with personalInfo := pi } := by
  unfold mergeSummary
  split
  · split
    · exact ⟨_, rfl⟩
    · exact ⟨r.personalInfo, rfl⟩
  · exact ⟨r.personalInfo, rfl⟩

theorem mergeSkills_shape (r : Resume) (t : List (String × JValue)) :
    ∃ sk, mergeSkills r t = { r with skills := sk } := by
  unfold mergeSkills
  split
  · split
    · exact ⟨_, rfl⟩
    · exact ⟨r.skills, rfl⟩
  · exact ⟨r.skills, rfl⟩

theorem mergeExperiences_ok (r r2 : Resume) (t : List (String × JValue))
    (h : mergeExperiences r t = .ok r2) :
    r2.personalInfo = r.personalInfo
    ∧ r2.projects = r.projects
    ∧ r2.education = r.education
    ∧ r2.certifications = r.certifications
    ∧ r2.skills = r.skills
    ∧ r2.experience.map (fun e => e.company) = r.experience.map (fun e => e.company)
    ∧ r2.experience.length = r.experience.length := by
  unfold mergeExperiences at h
  split at h
  · cases h
    exact ⟨rfl, rfl, rfl, rfl, rfl, rfl, rfl⟩
  · split at h
    · cases h
    · cases h
      refine ⟨rfl, rfl, rfl, rfl, rfl, map_company_updateExp _ _, ?_⟩
      simp only [List.length_map]
  · split at h
    · cases h
      exact ⟨rfl, rfl, rfl, rfl, rfl, rfl, rfl⟩
    · cases h
  · split at h
    · cases h
      exact ⟨rfl, rfl, rfl, rfl, rfl, rfl, rfl⟩
    · cases h
  · cases h

theorem mergeProjects_ok (r r2 : Resume) (t : List (String × JValue))
    (h : mergeProjects r t = .ok r2) :
    r2.personalInfo = r.personalInfo
    ∧ r2.experience = r.experience
    ∧ r2.education = r.education
    ∧ r2.certifications = r.certifications
    ∧ r2.skills = r.skills
    ∧ r2.projects.map (fun p => p.name) = r.projects.map (fun p => p.name)
    ∧ r2.projects.length = r.projects.length := by
  unfold mergeProjects at h
  split at h
  · cases h
    exact ⟨rfl, rfl, rfl, rfl, rfl, rfl, rfl⟩
  · split at h
    · cases h
    · cases h
      refine ⟨rfl, rfl, rfl, rfl, rfl, map_name_updateProj _ _, ?_⟩
      simp only [List.length_map]
  · split at h
    · cases h
      exact ⟨rfl, rfl, rfl, rfl, rfl, rfl, rfl⟩
    · cases h
  · split at h
    · cases h
      exact ⟨rfl, rfl, rfl, rfl, rfl, rfl, rfl⟩
    · cases h
  · cases h

theorem makeRequestAux_exc_step (p : GeminiPolicy) (u : Nat → CallBehavior) (rc : Nat)
    (m : String) (hx : callWithTimeout p.timeout (u rc) = .exc m)
    (hlt : rc < p.retryAttempts) :
    makeRequestAux p u rc =
      ((makeRequestAux p u (rc + 1)).1,
       (makeRequestAux p u (rc + 1)).2.1 + 1,
       p.retryDelay * 2 ^ rc :: (makeRequestAux p u (rc + 1)).2.2) := by
  conv_lhs => rw [makeRequestAux.eq_def]
  simp only [hx]
  rw [dif_pos hlt]

theorem makeRequestAux_exc_stop (p : GeminiPolicy) (u : Nat → CallBehavior) (rc : Nat)
    (m : String) (hx : callWithTimeout p.timeout (u rc) = .exc m)
    (hge : ¬ rc < p.retryAttempts) :
    makeRequestAux p u rc = (.exhausted, 1, []) := by
  conv_lhs => rw [makeRequestAux.eq_def]
  simp only [hx]
  rw [dif_neg hge]

theorem makeRequestAux_timed_out (p : GeminiPolicy) (u : Nat → CallBehavior) (rc : Nat)
    (hx : callWithTimeout p.timeout (u rc) = .timedOut) :
    makeRequestAux p u rc = (.timedOut, 1, []) := by
  conv_lhs => rw [makeRequestAux.eq_def]
  simp only [hx]

/-- C2, counterexample. The claim says invariant checks are re-run after
the merge and a violation fails the operation with a typed
`ReconciliationError`; on the concrete input below the tailoring step
returns a response whose resume has an empty experience description,
violating the schema invariants. -/
theorem c2_counterexample :
    (tailorFromParsed sampleResume emptyDescParsed).map
        (fun resp => schemaInvariants resp.tailoredResume) = some false := by
  rfl

/-- C2, amended. No invariant re-check exists and no `ReconciliationError`
type exists: whenever the merge succeeds and the four keyword/suggestion/
change fields of the response pass pydantic's `List[str]` validation, the
tailoring step returns the merged resume as-is, whether or not it
satisfies the schema invariants; an exception during the merge, and
equally a `ValidationError` at `TailorResponse` construction (e.g. a
non-string element in `matchedKeywords`), surfaces as the generic `None`
failure of `tailor_resume`, not as a typed error. -/
theorem c2_amended :
    (∀ (r : Resume) (res t : List (String × JValue)) (r3 : Resume)
        (mk mik sug chg : List String),
        lookupLast res "tailoredResume" = some (.obj t) →
        mergeTailoredContent r t = .ok r3 →
        pydStrList ((lookupLast res "matchedKeywords").getD (.arr [])) = .ok mk →
        pydStrList ((lookupLast res "missingKeywords").getD (.arr [])) = .ok mik →
        pydStrList ((lookupLast res "suggestions").getD (.arr [])) = .ok sug →
        pydStrList ((lookupLast res "changes").getD (.arr [])) = .ok chg →
        ∃ resp, tailorFromParsed r res = some resp ∧ resp.tailoredResume = r3)
    ∧ (∀ (r : Resume) (res t : List (String × JValue)) (e : String),
        lookupLast res "tailoredResume" = some (.obj t) →
        mergeTailoredContent r t = .error e →
        tailorFromParsed r res = none)
    ∧ (∀ (r : Resume) (res t : List (String × JValue)) (r3 : Resume) (e : String),
        lookupLast res "tailoredResume" = some (.obj t) →
        mergeTailoredContent r t = .ok r3 →
        pydStrList ((lookupLast res "matchedKeywords").getD (.arr [])) = .error e →
        tailorFromParsed r res = none) := by
  refine ⟨?_, ?_, ?_⟩
  · intro r res t r3 mk mik sug chg h1 h2 h3 h4 h5 h6
    simp only [tailorFromParsed, h1, h2, h3, h4, h5, h6]
    exact ⟨_, rfl, rfl⟩
  · intro r res t e h1 h2
    simp only [tailorFromParsed, h1, h2]
  · intro r res t r3 e h1 h2 h3
    simp only [tailorFromParsed, h1, h2, h3]

/-- C2, witness for the amended theorem: the invariant-violating merged
resume is returned as a success, the `KeyError` input maps to `None`, and
a non-string `matchedKeywords` element maps to `None` despite a successful
merge. -/
theorem c2_amended_witness :
    (∃ resp, tailorFromParsed sampleResume emptyDescParsed = some resp
        ∧ resp.tailoredResume = emptyDescMerged)
    ∧ tailorFromParsed sampleResume keyErrorParsed = none
    ∧ tailorFromParsed sampleResume badKeywordsParsed = none :=
  ⟨c2_amended.1 sampleResume emptyDescParsed emptyDescTailored emptyDescMerged
      ["Python"] [] [] [] rfl rfl rfl rfl rfl rfl,
   c2_amended.2.1 sampleResume keyErrorParsed [("experiences", .arr [.obj []])]
      "KeyError: company" rfl rfl,
   c2_amended.2.2 sampleResume badKeywordsParsed [] sampleResume
      "validation error: str expected" rfl rfl rfl⟩

/-- C5. Against an upstream that raises a transient (non-timeout) error on
every attempt, the orchestration with three retries and a base delay of
one second issues exactly four attempts, sleeping 1, 2 and 4 seconds
between consecutive attempts, and ends in the exhausted-budget failure
branch; the exception messages (hence the rate-limit classification) are
universally quantified and never change this behaviour. -/
theorem c5_retry_budget :
    ∀ (timeoutS : ℚ) (dur : Nat → ℚ) (msg : Nat → String),
      (∀ n, ¬ timeoutS < dur n) →
      makeRequest ⟨timeoutS, 3, 1⟩ (fun n => .raises (dur n) (msg n)) =
        (.exhausted, 4, [1, 2, 4]) := by
  intro timeoutS dur msg h
  have hc : ∀ n,
      callWithTimeout (GeminiPolicy.mk timeoutS 3 1).timeout
        ((fun n => CallBehavior.raises (dur n) (msg n)) n) = .exc (msg n) := by
    intro n
    simp only [callWithTimeout]
    rw [if_neg (h n)]
  unfold makeRequest
  rw [makeRequestAux_exc_step _ _ 0 _ (hc 0) (by norm_num),
      makeRequestAux_exc_step _ _ 1 _ (hc 1) (by norm_num),
      makeRequestAux_exc_step _ _ 2 _ (hc 2) (by norm_num),
      makeRequestAux_exc_stop _ _ 3 _ (hc 3) (by norm_num)]
  norm_num

/-- C5, witness at a concrete always-failing upstream. -/
theorem c5_retry_budget_witness :
    makeRequest ⟨30, 3, 1⟩ (fun _ => .raises 1 "429 quota exceeded") =
      (.exhausted, 4, [1, 2, 4]) :=
  c5_retry_budget 30 (fun _ => 1) (fun _ => "429 quota exceeded") (fun _ => by norm_num)

/-- C6. When the upstream call runs longer than the configured timeout,
the orchestrator ends in the timeout branch after exactly one attempt and
no sleeps, for every retry budget. -/
theorem c6_timeout_no_retry :
    ∀ (p : GeminiPolicy) (u : Nat → CallBehavior),
      p.timeout < callDuration (u 0) →
      makeRequest p u = (.timedOut, 1, []) := by
  intro p u h
  have hc : callWithTimeout p.timeout (u 0) = .timedOut := by
    cases hu : u 0 with
    | returns d t =>
      rw [hu] at h
      simp only [callDuration] at h
      simp only [callWithTimeout]
      rw [if_pos h]
    | raises d m =>
      rw [hu] at h
      simp only [callDuration] at h
      simp only [callWithTimeout]
      rw [if_pos h]
  unfold makeRequest
  exact makeRequestAux_timed_out p u 0 hc

/-- C6, witness: a 6-second call against a 5-second timeout. -/
theorem c6_timeout_no_retry_witness :
    makeRequest ⟨5, 3, 1⟩ (fun _ => .returns 6 "late response") = (.timedOut, 1, []) :=
  c6_timeout_no_retry ⟨5, 3, 1⟩ (fun _ => .returns 6 "late response")
    (by norm_num [callDuration])

/-- C9. Merging an AI mapping that carries only a non-empty summary
returns the original resume with only the summary replaced: every
education, experience, project and certification entry (and the skills)
of the result is the original one. The merge is a pure function of the
original (`model_copy(deep=True)` in the source), so the original value is
never mutated. -/
theorem c9_summary_only :
    ∀ (r : Resume) (s : String), s ≠ "" →
      mergeTailoredContent r [("summary", .str s)] =
        .ok { r with personalInfo := { r.personalInfo with summary := some s } } := by
  intro r s h
  have hs : truthy (.str s) = true := by
    simp only [truthy, bne_iff_ne, ne_eq]
    exact h
  have l1 : lookupLast [("summary", JValue.str s)] "summary" = some (.str s) := rfl
  have l2 : lookupLast [("summary", JValue.str s)] "experiences" = none := rfl
  have l3 : lookupLast [("summary", JValue.str s)] "projects" = none := rfl
  have l4 : lookupLast [("summary", JValue.str s)] "skills" = none := rfl
  unfold mergeTailoredContent mergeSummary mergeExperiences mergeProjects mergeSkills
  simp only [l1, l2, l3, l4, hs, if_true]
  rfl

/-- C9, witness at the concrete sample resume. -/
theorem c9_summary_only_witness :
    mergeTailoredContent sampleResume [("summary", .str "New summary")] =
      .ok { sampleResume with
            personalInfo := { samplePersonalInfo with summary := some "New summary" } } :=
  c9_summary_only sampleResume "New summary" (by decide)

/-- C10. Whenever the merge succeeds, the result has exactly the same
number of experience, project, education and certification entries as the
original, in the same order (companies and names positionally unchanged,
education and certifications untouched); AI entries matching no existing
entry never create or delete entries. -/
theorem c10_structure_preserved :
    ∀ (r : Resume) (t : List (String × JValue)) (r3 : Resume),
      mergeTailoredContent r t = .ok r3 →
      r3.experience.length = r.experience.length
      ∧ r3.experience.map (fun e => e.company) = r.experience.map (fun e => e.company)
      ∧ r3.projects.length = r.projects.length
      ∧ r3.projects.map (fun p => p.name) = r.projects.map (fun p => p.name)
      ∧ r3.education = r.education
      ∧ r3.certifications = r.certifications := by
  intro r t r3 h
  unfold mergeTailoredContent at h
  obtain ⟨pi, hpi⟩ := mergeSummary_shape r t
  rw [hpi] at h
  cases hex : mergeExperiences { r with personalInfo := pi } t with
  | error e =>
    simp only [hex] at h
    exact Except.noConfusion h
  | ok r1 =>
    simp only [hex] at h
    cases hpr : mergeProjects r1 t with
    | error e =>
      simp only [hpr] at h
      exact Except.noConfusion h
    | ok r2 =>
      simp only [hpr, Except.ok.injEq] at h
      subst h
      obtain ⟨_, hexproj, hexedu, hexcert, _, hexcomp, hexlen⟩ :=
        mergeExperiences_ok _ _ _ hex
      obtain ⟨_, hprexp, hpredu, hprcert, _, hprname, hprlen⟩ :=
        mergeProjects_ok _ _ _ hpr
      obtain ⟨sk, hsk⟩ := mergeSkills_shape r2 t
      rw [hsk]
      refine ⟨?_, ?_, ?_, ?_, ?_, ?_⟩
      · show r2.experience.length = r.experience.length
        rw [hprexp, hexlen]
      · show r2.experience.map (fun e => e.company) = r.experience.map (fun e => e.company)
        rw [hprexp, hexcomp]
      · show r2.projects.length = r.projects.length
        rw [hprlen, hexproj]
      · show r2.projects.map (fun p => p.name) = r.projects.map (fun p => p.name)
        rw [hprname, hexproj]
      · show r2.education = r.education
        rw [hpredu, hexedu]
      · show r2.certifications = r.certifications
        rw [hprcert, hexcert]

/-- C10, witness: a merge rewriting a matched description preserves the
entry structure. -/
theorem c10_structure_preserved_witness :
    emptyDescMerged.experience.length = sampleResume.experience.length
    ∧ emptyDescMerged.experience.map (fun e => e.company) =
        sampleResume.experience.map (fun e => e.company)
    ∧ emptyDescMerged.projects.length = sampleResume.projects.length
    ∧ emptyDescMerged.projects.map (fun p => p.name) =
        sampleResume.projects.map (fun p => p.name)
    ∧ emptyDescMerged.education = sampleResume.education
    ∧ emptyDescMerged.certifications = sampleResume.certifications :=
  c10_structure_preserved sampleResume emptyDescTailored emptyDescMerged rfl

end ResumeTailor
